import Mathlib

/-!
Verification development for the feature-extraction pipeline of the
SoundEventDetection repository, a shallow embedding of
`src/dataset/spectogram_features/preprocess.py`.

Modelling conventions:
* numpy arrays are nested lists; shapes are list lengths;
* audio samples are exact rationals, spectrogram values are real or
  complex numbers (floating-point rounding is not modelled);
* external library calls (`soundfile.read`, `librosa.resample`, the FFT
  inside `librosa.core.stft`) are passed in as function parameters, while
  their documented output shapes are modelled concretely;
* the configuration module `dataset.spectogram_features.spectogram_configs`
  is not under `src/`, so it is modelled from the spec as a structure of
  per-run constants.
-/

namespace SoundEventDetection

/-- A 3-D numpy array `[dim0][dim1][dim2]` as nested lists. -/
abbrev Tensor3 (α : Type) : Type := List (List (List α))

/-- numpy `shape[1]` of a rectangular 2-D array (length of the first row). -/
def shape1 {α : Type} (x : List (List α)) : ℕ := (x.headD []).length

/-- numpy `shape[2]` of a rectangular 3-D array. -/
def shape2 {α : Type} (x : Tensor3 α) : ℕ := ((x.headD []).headD []).length

/-- `np.mean` of a 1-D array: sum divided by length. -/
def np_mean {α : Type} [Field α] (l : List α) : α := l.sum / (l.length : α)

/-- Modelled from the spec: the configuration module
`dataset.spectogram_features.spectogram_configs` is missing from `src/`;
the spec (section 6) lists these per-run constants. -/
structure SpectrogramConfig where
  working_sample_rate : ℕ
  audio_channels : ℕ
  NFFT : ℕ
  frame_size : ℕ
  hop_size : ℕ
  mel_bins : ℕ

/-! ## Audio Loader (`read_multichannel_audio`, preprocess.py lines 20-43) -/

/-- Raw result of the external `soundfile.read`: a 1-D (mono) or a 2-D
`[time, channel]` array of samples. -/
inductive RawAudio : Type
  | mono (samples : List ℚ)
  | multi (samples : List (List ℚ))

/-- The `reshape(-1, 1)` applied when `soundfile.read` returns a 1-D array
(preprocess.py lines 25-26). -/
def RawAudio.as2D : RawAudio → List (List ℚ)
  | .mono s => s.map (fun v => [v])
  | .multi s => s

/-- One entry of `multichannel_audio.mean(1)`: the mean over channels of a
single time row. -/
def rowMean (row : List ℚ) : ℚ := np_mean row

/-- Channel-count normalisation of `read_multichannel_audio`
(preprocess.py lines 27-33), in source order:
if fewer channels than `audio_channels`, replicate the per-row channel mean;
else if `audio_channels == 1`, average down to one channel;
else if more channels than `audio_channels`, keep the first `audio_channels`. -/
def normalizeChannels (audio_channels : ℕ) (x : List (List ℚ)) : List (List ℚ) :=
  if shape1 x < audio_channels then
    x.map (fun row => List.replicate audio_channels (rowMean row))
  else if audio_channels = 1 then
    x.map (fun row => [rowMean row])
  else if audio_channels < shape1 x then
    x.map (fun row => row.take audio_channels)
  else
    x

/-- `np.array(rows).T` for a rectangular list of rows. -/
def np_transpose (rows : List (List ℚ)) : List (List ℚ) :=
  (List.range (shape1 rows)).map (fun t => rows.map (fun r => r.getD t 0))

/-- The resampling branch of `read_multichannel_audio`
(preprocess.py lines 35-41): every channel is resampled separately by the
external `librosa.resample` (parameter `resample orig_sr target_sr channel`)
and the channels are recombined by transposition. -/
def resampleChannels (resample : ℕ → ℕ → List ℚ → List ℚ) (sample_rate target_fs : ℕ)
    (x : List (List ℚ)) : List (List ℚ) :=
  np_transpose ((List.range (shape1 x)).map
    (fun i => resample sample_rate target_fs (x.map (fun row => row.getD i 0))))

/-- `read_multichannel_audio` (preprocess.py lines 20-43).  The external
`soundfile.read` result is passed in as `raw` and `sample_rate`; resampling
happens only when a target rate is given and differs from the source rate. -/
def read_multichannel_audio (resample : ℕ → ℕ → List ℚ → List ℚ) (audio_channels : ℕ)
    (raw : RawAudio) (sample_rate : ℕ) (target_fs : Option ℕ) : List (List ℚ) :=
  let x := normalizeChannels audio_channels raw.as2D
  match target_fs with
  | none => x
  | some fs => if sample_rate ≠ fs then resampleChannels resample sample_rate fs x else x

/-! ## Multichannel STFT Engine (`multichannel_stft`, preprocess.py lines 46-61) -/

/-- Frame count of `librosa.core.stft(y, hop_length=hop, center=True)` on a
signal of `n` samples: the documented output has `1 + n // hop` frames
(the signal is padded by half a window on each side so that frame `t` is
centred at sample `t * hop`). -/
def stftFrameCount (hop n : ℕ) : ℕ := n / hop + 1

/-- One channel of `librosa.core.stft(..., center=True).T`: a
`[time_frame, freq_bin]` array of shape `[1 + n // hop, NFFT // 2 + 1]`.
The complex values themselves come from the external windowed FFT,
abstracted as `dft signal t f`. -/
def librosa_stft_T (dft : List ℚ → ℕ → ℕ → ℂ) (NFFT hop : ℕ) (y : List ℚ) :
    List (List ℂ) :=
  (List.range (stftFrameCount hop y.length)).map
    (fun t => (List.range (NFFT / 2 + 1)).map (fun f => dft y t f))

/-- `multichannel_stft` (preprocess.py lines 46-61): one spectrogram per
channel of the `[time, channel]` input signal. -/
def multichannel_stft (dft : List ℚ → ℕ → ℕ → ℂ) (cfg : SpectrogramConfig)
    (signal : List (List ℚ)) : Tensor3 ℂ :=
  (List.range (shape1 signal)).map
    (fun c => librosa_stft_T dft cfg.NFFT cfg.hop_size
      (signal.map (fun row => row.getD c 0)))

/-! ## Log-Mel Projector (`multichannel_complex_to_log_mel`, preprocess.py lines 64-70) -/

/-- `librosa.core.power_to_db(S, ref, amin, top_db=None)` on one entry:
`10*log10(max(amin, |S|)) - 10*log10(max(amin, |ref|))`, with no upper
clipping because `top_db=None`. -/
noncomputable def power_to_db (amin ref S : ℝ) : ℝ :=
  10 * Real.logb 10 (max amin |S|) - 10 * Real.logb 10 (max amin |ref|)

/-- `np.dot` of one power row `[freq]` with the mel matrix `M : [freq, mel]`
at mel column `j`. -/
def melDot (row : List ℝ) (M : List (List ℝ)) (j : ℕ) : ℝ :=
  (List.zipWith (fun p mrow => p * mrow.getD j 0) row M).sum

/-- `multichannel_complex_to_log_mel` (preprocess.py lines 64-70).
`M` is the fixed `MEL_FILTER_BANK_MATRIX` (external
`librosa.filters.mel(...).T`, shape `[freq, mel]`, computed once at import).
Steps: power = `np.abs(z) ** 2`, mel power = `np.dot(power, M)`,
log scale = `power_to_db(mel, ref=1.0, amin=1e-10, top_db=None)`.
The final `astype(np.float32)` cast is not modelled (exact reals). -/
noncomputable def multichannel_complex_to_log_mel (M : List (List ℝ)) (x : Tensor3 ℂ) :
    Tensor3 ℝ :=
  let power := x.map (fun ch => ch.map (fun row => row.map (fun z => Complex.abs z ^ 2)))
  let mel := power.map (fun ch => ch.map
    (fun row => (List.range (shape1 M)).map (fun j => melDot row M j)))
  mel.map (fun ch => ch.map (fun row => row.map (fun p => power_to_db 1e-10 1 p)))

/-! ## Corpus Statistics Accumulator (`calculate_scalar_of_tensor`, preprocess.py lines 73-82) -/

/-- The entries of a 3-D array at last-axis index `k`, flattened over
axes `(0, 1)`. -/
def entries3At {α : Type} [Field α] (x : Tensor3 α) (k : ℕ) : List α :=
  (x.map (fun ch => ch.map (fun row => row.getD k 0))).flatten

/-- The entries of a 2-D array at last-axis index `k` (one per row). -/
def entries2At {α : Type} [Field α] (x : List (List α)) (k : ℕ) : List α :=
  x.map (fun row => row.getD k 0)

/-- `np.mean(x, axis=(0,1))` of a rectangular 3-D array: one mean per
last-axis bin, averaging over axes 0 and 1. -/
def np_mean_axis01 {α : Type} [Field α] (x : Tensor3 α) : List α :=
  (List.range (shape2 x)).map (fun k => np_mean (entries3At x k))

/-- `np.mean(x, axis=0)` of a rectangular 2-D array. -/
def np_mean_axis0 {α : Type} [Field α] (x : List (List α)) : List α :=
  (List.range (shape1 x)).map (fun k => np_mean (entries2At x k))

/-- `np.std` of a 1-D slice: `sqrt(mean(abs(v - mean) ** 2))`
(numpy population standard deviation, `ddof = 0`); `abs` is the absolute
value used by numpy for the element type. -/
noncomputable def np_std_slice {α : Type} [Field α] (abs : α → ℝ) (l : List α) : ℝ :=
  Real.sqrt (np_mean (l.map (fun v => abs (v - np_mean l) ^ 2)))

/-- `np.std(x, axis=(0,1))` of a rectangular 3-D array. -/
noncomputable def np_std_axis01 {α : Type} [Field α] (abs : α → ℝ) (x : Tensor3 α) :
    List ℝ :=
  (List.range (shape2 x)).map (fun k => np_std_slice abs (entries3At x k))

/-- `np.std(x, axis=0)` of a rectangular 2-D array. -/
noncomputable def np_std_axis0 {α : Type} [Field α] (abs : α → ℝ) (x : List (List α)) :
    List ℝ :=
  (List.range (shape1 x)).map (fun k => np_std_slice abs (entries2At x k))

/-- `calculate_scalar_of_tensor` (preprocess.py lines 73-82), 3-D branch:
`axis = (0, 1)`. -/
noncomputable def calculate_scalar_of_tensor3 {α : Type} [Field α] (abs : α → ℝ)
    (x : Tensor3 α) : List α × List ℝ :=
  (np_mean_axis01 x, np_std_axis01 abs x)

/-- `calculate_scalar_of_tensor` (preprocess.py lines 73-82), 2-D branch:
`axis = 0`. -/
noncomputable def calculate_scalar_of_tensor2 {α : Type} [Field α] (abs : α → ℝ)
    (x : List (List α)) : List α × List ℝ :=
  (np_mean_axis0 x, np_std_axis0 abs x)

/-- `np.concatenate(lst, axis=1)`: channel-wise appending along the time
axis; raises `ValueError` (here `none`) on an empty list of arrays. -/
def np_concatenate_axis1 {α : Type} : List (Tensor3 α) → Option (Tensor3 α)
  | [] => none
  | [f] => some f
  | f :: g :: t =>
    (np_concatenate_axis1 (g :: t)).map (fun A => List.zipWith (fun a b => a ++ b) f A)

/-- Rectangularity of a 3-D array: shape `[c, t, m]`. -/
def IsTensor3 {α : Type} (c t m : ℕ) (x : Tensor3 α) : Prop :=
  x.length = c ∧ ∀ ch ∈ x, ch.length = t ∧ ∀ row ∈ ch, row.length = m

/-! Streaming statistics, modelled from the spec (sections 3 and 5): per-file
sum, sum of squares and entry count per bin, merged by addition across
files, then combined into mean and standard deviation. -/

/-- Per-file sum of the entries at bin `k`. -/
noncomputable def fileSumAt (x : Tensor3 ℝ) (k : ℕ) : ℝ := (entries3At x k).sum

/-- Per-file sum of squares of the entries at bin `k`. -/
noncomputable def fileSqSumAt (x : Tensor3 ℝ) (k : ℕ) : ℝ :=
  ((entries3At x k).map (fun v => v ^ 2)).sum

/-- Per-file count of the entries at bin `k`. -/
noncomputable def fileCountAt (x : Tensor3 ℝ) (k : ℕ) : ℕ := (entries3At x k).length

/-- Modelled from the spec: the streaming accumulation of
(sum, sum of squares, count) merged across files;
mean = total sum / total count, std = sqrt(total sum of squares / total
count - mean ^ 2). -/
noncomputable def streamingStats (fs : List (Tensor3 ℝ)) : List ℝ × List ℝ :=
  ((List.range (shape2 (fs.headD []))).map (fun k =>
      (fs.map (fun f => fileSumAt f k)).sum / ((fs.map (fun f => fileCountAt f k)).sum : ℝ)),
   (List.range (shape2 (fs.headD []))).map (fun k =>
      Real.sqrt ((fs.map (fun f => fileSqSumAt f k)).sum
          / ((fs.map (fun f => fileCountAt f k)).sum : ℝ)
        - ((fs.map (fun f => fileSumAt f k)).sum
          / ((fs.map (fun f => fileCountAt f k)).sum : ℝ)) ^ 2)))

/-! ## Feature Cache Writer (`preprocess_data`, preprocess.py lines 85-110) -/

/-- The feature stored per file: the raw complex spectrogram when
`preprocess_mode != 'logMel'`, the log-mel features when it is `'logMel'`. -/
abbrev Feature : Type := Sum (Tensor3 ℂ) (Tensor3 ℝ)

/-- One pickled cache record: exactly the keys
`{features, start_times, end_times}` (preprocess.py line 99). -/
structure CacheRecord where
  features : Feature
  start_times : List ℚ
  end_times : List ℚ

/-- One input tuple of `audio_path_and_labels`. -/
structure AudioEntry where
  audio_path : String
  start_times : List ℚ
  end_times : List ℚ
  audio_name : String

/-- `os.path.join(output_dir, audio_name + "_" + mode + "_features_and_labels.pkl")`
(preprocess.py line 97), for a relative second component and an
`output_dir` without a trailing slash. -/
def cachePath (output_dir audio_name mode : String) : String :=
  output_dir ++ "/" ++ audio_name ++ "_" ++ mode ++ "_features_and_labels.pkl"

/-- The per-file feature computation of the loop body
(preprocess.py lines 92-94). -/
noncomputable def computeFeature (dft : List ℚ → ℕ → ℕ → ℂ) (M : List (List ℝ))
    (cfg : SpectrogramConfig) (mode : String) (wave : List (List ℚ)) : Feature :=
  let f := multichannel_stft dft cfg wave
  if mode = "logMel" then Sum.inr (multichannel_complex_to_log_mel M f) else Sum.inl f

/-- The left component of a `Feature`, when present. -/
def featInl : Feature → Option (Tensor3 ℂ)
  | Sum.inl c => some c
  | Sum.inr _ => none

/-- The right component of a `Feature`, when present. -/
def featInr : Feature → Option (Tensor3 ℝ)
  | Sum.inl _ => none
  | Sum.inr r => some r

/-- The statistics payload pickled to `output_mean_std_file`. -/
abbrev StatsPayload : Type := Sum (List ℂ × List ℝ) (List ℝ × List ℝ)

/-- `np.concatenate(all_features, axis=1)` followed by
`calculate_scalar_of_tensor` (preprocess.py lines 102-103).  In any one run
all features have the same kind, given by the fixed `preprocess_mode`. -/
noncomputable def statsOfFeatures (feats : List Feature) : Option StatsPayload :=
  match feats.mapM featInr with
  | some rs => (np_concatenate_axis1 rs).map
      (fun A => Sum.inr (calculate_scalar_of_tensor3 (fun r => |r|) A))
  | none =>
    match feats.mapM featInl with
    | some cs => (np_concatenate_axis1 cs).map
        (fun A => Sum.inl (calculate_scalar_of_tensor3 (fun z => Complex.abs z) A))
    | none => none

/-- Reading one audio file inside the loop (preprocess.py line 91):
the external `soundfile.read` is `reader`, followed by
`read_multichannel_audio` with `target_fs = cfg.working_sample_rate`. -/
def loadWave (reader : String → Except String (RawAudio × ℕ))
    (resample : ℕ → ℕ → List ℚ → List ℚ) (cfg : SpectrogramConfig) (path : String) :
    Except String (List (List ℚ)) :=
  (reader path).map (fun p =>
    read_multichannel_audio resample cfg.audio_channels p.1 p.2
      (some cfg.working_sample_rate))

/-- The per-file loop of `preprocess_data` (preprocess.py lines 90-100):
returns the cache writes made, in order, and either the collected feature
list or the error that aborted the loop.  A read failure stops the loop;
earlier writes remain on disk. -/
def processFiles (load : String → Except String (List (List ℚ)))
    (extract : List (List ℚ) → Feature) (output_dir mode : String) :
    List AudioEntry → List (String × CacheRecord) × Except String (List Feature)
  | [] => ([], Except.ok [])
  | e :: rest =>
    match load e.audio_path with
    | Except.error msg => ([], Except.error msg)
    | Except.ok wave =>
      let feat := extract wave
      let r := processFiles load extract output_dir mode rest
      ((cachePath output_dir e.audio_name mode, ⟨feat, e.start_times, e.end_times⟩) :: r.1,
        r.2.map (fun fs => feat :: fs))

/-- Observable outcome of one `preprocess_data` run: the cache records
written (path, payload), the statistics record written (path, payload), and
the exception aborting the run, if any. -/
structure RunResult where
  cacheWrites : List (String × CacheRecord)
  statsWrite : Option (String × StatsPayload)
  failed : Option String

/-- `preprocess_data` (preprocess.py lines 85-110).  The loop writes one
cache record per successfully processed file; afterwards the features are
concatenated along time, reduced to (mean, std) and written to
`output_mean_std_file`.  `np.concatenate` of an empty list raises
`ValueError`.  The trailing debug visualisation (`random.choice` plus
plotting) cannot fail on the non-empty lists that reach it and writes no
cache or statistics record, so it is not modelled. -/
noncomputable def preprocess_data (reader : String → Except String (RawAudio × ℕ))
    (resample : ℕ → ℕ → List ℚ → List ℚ) (dft : List ℚ → ℕ → ℕ → ℂ)
    (M : List (List ℝ)) (cfg : SpectrogramConfig) (files : List AudioEntry)
    (output_dir output_mean_std_file mode : String) : RunResult :=
  let r := processFiles (loadWave reader resample cfg) (computeFeature dft M cfg mode)
    output_dir mode files
  match r.2 with
  | Except.error msg => ⟨r.1, none, some msg⟩
  | Except.ok feats =>
    match statsOfFeatures feats with
    | none => ⟨r.1, none, some "ValueError: need at least one array to concatenate"⟩
    | some s => ⟨r.1, some (output_mean_std_file, s), none⟩

/-- The effect of a sequence of pickled writes on a key-value store:
later writes to the same path overwrite earlier ones. -/
def applyWrites : List (String × CacheRecord) → (String → Option CacheRecord) →
    (String → Option CacheRecord)
  | [], σ => σ
  | (k, v) :: ws, σ => applyWrites ws (fun q => if q = k then some v else σ q)

/-- The last value written to path `q` by a write list, if any. -/
def lastWrite (q : String) : List (String × CacheRecord) → Option CacheRecord
  | [] => none
  | (k, v) :: ws => (lastWrite q ws).orElse (fun _ => if q = k then some v else none)

/-- Modelled from the spec claim C1: per-channel, per-mel-bin means that
reduce only over the time axis, keeping both the channel axis and the
mel-bin axis (one row of per-bin means per channel). -/
noncomputable def claimedPerChannelMean (x : Tensor3 ℝ) : List (List ℝ) :=
  x.map np_mean_axis0

/-! ## Helper lemmas -/

theorem shape1_eq {α : Type} {x : List (List α)} {c : ℕ} (hne : x ≠ [])
    (h : ∀ row ∈ x, row.length = c) : shape1 x = c := by
  cases x with
  | nil => exact absurd rfl hne
  | cons r t => exact h r (List.mem_cons_self r t)

theorem normalizeChannels_ne_nil {target : ℕ} {x : List (List ℚ)} (hne : x ≠ []) :
    normalizeChannels target x ≠ [] := by
  unfold normalizeChannels
  split_ifs <;> simpa using hne

theorem normalizeChannels_row_length {target c : ℕ} {x : List (List ℚ)}
    (hc : 0 < c) (ht : 0 < target) (hne : x ≠ []) (hrect : ∀ row ∈ x, row.length = c) :
    ∀ row ∈ normalizeChannels target x, row.length = target := by
  intro row hrow
  unfold normalizeChannels at hrow
  rw [shape1_eq hne hrect] at hrow
  split_ifs at hrow with h1 h2 h3
  · obtain ⟨r, _, rfl⟩ := List.mem_map.mp hrow
    simp
  · obtain ⟨r, _, rfl⟩ := List.mem_map.mp hrow
    simp [h2]
  · obtain ⟨r, hr, rfl⟩ := List.mem_map.mp hrow
    simp [hrect r hr, Nat.le_of_lt h3]
  · have hct : c = target := by omega
    rw [← hct]
    exact hrect row hrow

/-! ## Claim theorems -/

/-- C4: when the source sample rate already equals the target rate passed to
`read_multichannel_audio` (or no target rate is given), the resampling stage
is the identity: the output is exactly the channel-normalised input samples. -/
theorem C4_resampling_identity (resample : ℕ → ℕ → List ℚ → List ℚ)
    (audio_channels : ℕ) (raw : RawAudio) (sample_rate : ℕ) :
    read_multichannel_audio resample audio_channels raw sample_rate (some sample_rate)
        = normalizeChannels audio_channels raw.as2D
      ∧ read_multichannel_audio resample audio_channels raw sample_rate none
        = normalizeChannels audio_channels raw.as2D := by
  constructor
  · simp [read_multichannel_audio]
  · rfl

/-- C3: the output of `read_multichannel_audio` always has `audio_channels`
columns, whatever the source channel count; fewer-than-required channels are
expanded by replicating the per-row mean, a configured count of 1 averages
all channels down to one, and more-than-required channels are truncated
keeping the first `target`. -/
theorem C3_channel_normalization (resample : ℕ → ℕ → List ℚ → List ℚ)
    (target sample_rate : ℕ) (tfs : Option ℕ) (raw : RawAudio) (c : ℕ)
    (hc : 0 < c) (ht : 0 < target) (hne : raw.as2D ≠ [])
    (hrect : ∀ row ∈ raw.as2D, row.length = c) :
    (∀ row ∈ read_multichannel_audio resample target raw sample_rate tfs,
        row.length = target)
      ∧ (c < target → normalizeChannels target raw.as2D
          = raw.as2D.map (fun row => List.replicate target (rowMean row)))
      ∧ (target = 1 → normalizeChannels target raw.as2D
          = raw.as2D.map (fun row => [rowMean row]))
      ∧ (target ≠ 1 → target < c → normalizeChannels target raw.as2D
          = raw.as2D.map (fun row => row.take target)) := by
  have hnorm : ∀ row ∈ normalizeChannels target raw.as2D, row.length = target :=
    normalizeChannels_row_length hc ht hne hrect
  have hnne : normalizeChannels target raw.as2D ≠ [] := normalizeChannels_ne_nil hne
  have hshape : shape1 (normalizeChannels target raw.as2D) = target :=
    shape1_eq hnne hnorm
  refine ⟨?_, ?_, ?_, ?_⟩
  · intro row hrow
    match tfs with
    | none => exact hnorm row hrow
    | some fs =>
      rw [show read_multichannel_audio resample target raw sample_rate (some fs)
          = if sample_rate ≠ fs then resampleChannels resample sample_rate fs
              (normalizeChannels target raw.as2D)
            else normalizeChannels target raw.as2D from rfl] at hrow
      by_cases hsr : sample_rate ≠ fs
      · rw [if_pos hsr] at hrow
        unfold resampleChannels np_transpose at hrow
        obtain ⟨t, _, rfl⟩ := List.mem_map.mp hrow
        simp [hshape]
      · rw [if_neg hsr] at hrow
        exact hnorm row hrow
  · intro h1
    unfold normalizeChannels
    rw [shape1_eq hne hrect, if_pos h1]
  · intro h2
    have hnlt : ¬ c < target := by omega
    unfold normalizeChannels
    rw [shape1_eq hne hrect, if_neg hnlt, if_pos h2]
  · intro h2 h3
    have hnlt : ¬ c < target := by omega
    unfold normalizeChannels
    rw [shape1_eq hne hrect, if_neg hnlt, if_neg h2, if_pos h3]

/-- Witness for C3 at a concrete 3-channel input with target channel count 2. -/
theorem C3_channel_normalization_witness :
    (∀ row ∈ read_multichannel_audio (fun _ _ l => l) 2 (RawAudio.multi [[1, 2, 3]])
        5 (some 4), row.length = 2)
      ∧ (3 < 2 → normalizeChannels 2 (RawAudio.multi [[1, 2, 3]]).as2D
          = (RawAudio.multi [[1, 2, 3]]).as2D.map
              (fun row => List.replicate 2 (rowMean row)))
      ∧ ((2 : ℕ) = 1 → normalizeChannels 2 (RawAudio.multi [[1, 2, 3]]).as2D
          = (RawAudio.multi [[1, 2, 3]]).as2D.map (fun row => [rowMean row]))
      ∧ ((2 : ℕ) ≠ 1 → 2 < 3 → normalizeChannels 2 (RawAudio.multi [[1, 2, 3]]).as2D
          = (RawAudio.multi [[1, 2, 3]]).as2D.map (fun row => row.take 2)) :=
  C3_channel_normalization (fun _ _ l => l) 2 5 (some 4) (RawAudio.multi [[1, 2, 3]]) 3
    (by decide) (by decide) (by decide) (by decide)

/-- C10: `preprocess_data` on an empty input list fails (the concatenation of
zero arrays raises `ValueError`) and writes neither a statistics record nor
any cache record. -/
theorem C10_empty_batch_rejected (reader : String → Except String (RawAudio × ℕ))
    (resample : ℕ → ℕ → List ℚ → List ℚ) (dft : List ℚ → ℕ → ℕ → ℂ)
    (M : List (List ℝ)) (cfg : SpectrogramConfig) (output_dir msf mode : String) :
    (preprocess_data reader resample dft M cfg [] output_dir msf mode).cacheWrites = []
      ∧ (preprocess_data reader resample dft M cfg [] output_dir msf mode).statsWrite
          = none
      ∧ (preprocess_data reader resample dft M cfg [] output_dir msf mode).failed.isSome
          = true := by
  refine ⟨rfl, rfl, rfl⟩

/-- C8: on any non-empty signal, even one shorter than a single analysis
frame, `multichannel_stft` yields one spectrogram per channel with at least
one frame each. -/
theorem C8_short_signal_still_frames (dft : List ℚ → ℕ → ℕ → ℂ)
    (cfg : SpectrogramConfig) (signal : List (List ℚ)) (h : 1 ≤ signal.length) :
    (multichannel_stft dft cfg signal).length = shape1 signal
      ∧ ∀ ch ∈ multichannel_stft dft cfg signal, 1 ≤ ch.length := by
  constructor
  · simp [multichannel_stft]
  · intro ch hch
    obtain ⟨c, _, rfl⟩ := List.mem_map.mp hch
    simp [librosa_stft_T, stftFrameCount]

/-- Witness for C8: a 2-sample signal with frame size 4 (shorter than one
frame) still yields at least one frame. -/
theorem C8_short_signal_still_frames_witness :
    (multichannel_stft (fun _ _ _ => 0) ⟨48000, 1, 8, 4, 2, 64⟩ [[1], [1]]).length
        = shape1 [[(1 : ℚ)], [1]]
      ∧ ∀ ch ∈ multichannel_stft (fun _ _ _ => 0) ⟨48000, 1, 8, 4, 2, 64⟩ [[1], [1]],
          1 ≤ ch.length :=
  C8_short_signal_still_frames (fun _ _ _ => 0) ⟨48000, 1, 8, 4, 2, 64⟩ [[1], [1]]
    (by decide)

/-- Counterexample to C2 as stated: with hop size 2 and a 4-sample signal
(hop divides the sample count) the centred STFT produces `4 / 2 + 1 = 3`
frames, while `ceil(4 / 2) = 2`. -/
theorem C2_frame_count_counterexample :
    ((multichannel_stft (fun _ _ _ => 0) ⟨48000, 1, 8, 4, 2, 64⟩
        [[1], [1], [1], [1]]).headD []).length = 3
      ∧ (([[(1 : ℚ)], [1], [1], [1]].length + 2 - 1) / 2 : ℕ) = 2
      ∧ ((multichannel_stft (fun _ _ _ => 0) ⟨48000, 1, 8, 4, 2, 64⟩
          [[1], [1], [1], [1]]).headD []).length
        ≠ (([[(1 : ℚ)], [1], [1], [1]].length + 2 - 1) / 2 : ℕ) := by
  refine ⟨?_, by norm_num, ?_⟩ <;>
    simp [multichannel_stft, librosa_stft_T, stftFrameCount, shape1, List.range_succ]

/-- C2 amended: for every non-empty signal the number of frames produced per
channel by `multichannel_stft` (centred analysis) is
`num_samples / hop_size + 1` (integer division), which equals
`ceil(num_samples / hop_size)` exactly when `hop_size` does not divide
`num_samples`; the log-mel conversion preserves this frame count. -/
theorem C2_frame_count_amended (dft : List ℚ → ℕ → ℕ → ℂ) (M : List (List ℝ))
    (cfg : SpectrogramConfig) (signal : List (List ℚ)) (h : 1 ≤ signal.length) :
    (∀ ch ∈ multichannel_stft dft cfg signal,
        ch.length = signal.length / cfg.hop_size + 1)
      ∧ ∀ ch ∈ multichannel_complex_to_log_mel M (multichannel_stft dft cfg signal),
          ch.length = signal.length / cfg.hop_size + 1 := by
  have hstft : ∀ ch ∈ multichannel_stft dft cfg signal,
      ch.length = signal.length / cfg.hop_size + 1 := by
    intro ch hch
    obtain ⟨c, _, rfl⟩ := List.mem_map.mp hch
    simp [librosa_stft_T, stftFrameCount]
  refine ⟨hstft, ?_⟩
  intro ch hch
  simp only [multichannel_complex_to_log_mel, List.map_map, List.mem_map] at hch
  obtain ⟨c, hc, rfl⟩ := hch
  simpa using hstft c hc

/-- Witness for C2 amended at a concrete 3-sample signal with hop size 2. -/
theorem C2_frame_count_amended_witness :
    (∀ ch ∈ multichannel_stft (fun _ _ _ => 0) ⟨48000, 1, 8, 4, 2, 64⟩ [[1], [1], [1]],
        ch.length = [[(1 : ℚ)], [1], [1]].length / 2 + 1)
      ∧ ∀ ch ∈ multichannel_complex_to_log_mel [[1]]
            (multichannel_stft (fun _ _ _ => 0) ⟨48000, 1, 8, 4, 2, 64⟩ [[1], [1], [1]]),
          ch.length = [[(1 : ℚ)], [1], [1]].length / 2 + 1 :=
  C2_frame_count_amended (fun _ _ _ => 0) [[1]] ⟨48000, 1, 8, 4, 2, 64⟩ [[1], [1], [1]]
    (by decide)

theorem logb_ten_amin : Real.logb 10 (1e-10 : ℝ) = -10 := by
  have h : (1e-10 : ℝ) = ((10 : ℝ) ^ (10 : ℕ))⁻¹ := by norm_num
  rw [h, Real.logb_inv, Real.logb_pow, Real.logb_self_eq_one (by norm_num)]
  norm_num

theorem power_to_db_lower (S : ℝ) : -100 ≤ power_to_db 1e-10 1 S := by
  have h1 : Real.logb 10 (1e-10 : ℝ) ≤ Real.logb 10 (max (1e-10) |S|) :=
    Real.logb_le_logb_of_le (by norm_num) (by norm_num) (le_max_left _ _)
  have h2 : power_to_db 1e-10 1 S = 10 * Real.logb 10 (max (1e-10) |S|) := by
    unfold power_to_db
    rw [abs_one, max_eq_right (by norm_num : (1e-10 : ℝ) ≤ 1), Real.logb_one]
    ring
  rw [h2, logb_ten_amin] at *
  linarith

/-- C5: every entry of the log-mel output is finite and floored: it is at
least `10 * log10(1e-10) = -100`; any mel power whose magnitude is at or
below `1e-10` maps exactly to `10 * log10(1e-10)`, and above the floor no
clipping is applied (`10 * log10(p)` exactly). -/
theorem C5_log_mel_floor (M : List (List ℝ)) (x : Tensor3 ℂ) :
    (∀ ch ∈ multichannel_complex_to_log_mel M x, ∀ row ∈ ch, ∀ e ∈ row, -100 ≤ e)
      ∧ (∀ p : ℝ, |p| ≤ 1e-10 →
          power_to_db 1e-10 1 p = 10 * Real.logb 10 (1e-10 : ℝ))
      ∧ (∀ p : ℝ, 1e-10 ≤ p → power_to_db 1e-10 1 p = 10 * Real.logb 10 p)
      ∧ (10 : ℝ) * Real.logb 10 (1e-10 : ℝ) = -100 := by
  refine ⟨?_, ?_, ?_, by rw [logb_ten_amin]; norm_num⟩
  · intro ch hch
    simp only [multichannel_complex_to_log_mel, List.map_map, List.mem_map] at hch
    obtain ⟨c, _, rfl⟩ := hch
    intro row hrow
    simp only [Function.comp_apply, List.map_map, List.mem_map] at hrow
    obtain ⟨r, _, rfl⟩ := hrow
    intro e he
    simp only [Function.comp_apply, List.map_map, List.mem_map] at he
    obtain ⟨j, _, rfl⟩ := he
    exact power_to_db_lower _
  · intro p hp
    unfold power_to_db
    rw [max_eq_left hp, abs_one, max_eq_right (by norm_num : (1e-10 : ℝ) ≤ 1),
      Real.logb_one]
    ring
  · intro p hp
    have hp0 : 0 ≤ p := le_trans (by norm_num) hp
    unfold power_to_db
    rw [abs_of_nonneg hp0, max_eq_right hp, abs_one,
      max_eq_right (by norm_num : (1e-10 : ℝ) ≤ 1), Real.logb_one]
    ring

/-- Witness for C5 at a zero-power spectrogram with a one-entry filter bank. -/
theorem C5_log_mel_floor_witness :
    power_to_db 1e-10 1 0 = 10 * Real.logb 10 (1e-10 : ℝ)
      ∧ power_to_db 1e-10 1 1 = 10 * Real.logb 10 (1 : ℝ)
      ∧ -100 ≤ power_to_db 1e-10 1 (melDot [Complex.abs 0 ^ 2] [[1]] 0) := by
  obtain ⟨h1, h2, h3, _⟩ := C5_log_mel_floor [[1]] [[[0]]]
  have hx : multichannel_complex_to_log_mel [[1]] [[[0]]]
      = [[[power_to_db 1e-10 1 (melDot [Complex.abs 0 ^ 2] [[1]] 0)]]] := by
    simp [multichannel_complex_to_log_mel, shape1, List.range_succ]
  refine ⟨h2 0 (by norm_num), h3 1 (by norm_num), ?_⟩
  refine h1 [[power_to_db 1e-10 1 (melDot [Complex.abs 0 ^ 2] [[1]] 0)]] ?_
    [power_to_db 1e-10 1 (melDot [Complex.abs 0 ^ 2] [[1]] 0)] ?_ _ ?_
  · rw [hx]
    simp
  · simp
  · simp

theorem shape2_of_isTensor3 {α : Type} {c t m : ℕ} {x : Tensor3 α}
    (hx : IsTensor3 c t m x) (hc : 0 < c) (ht : 0 < t) : shape2 x = m := by
  obtain ⟨hlen, hall⟩ := hx
  cases x with
  | nil => simp at hlen; omega
  | cons ch rest =>
    obtain ⟨hchlen, hrows⟩ := hall ch (List.mem_cons_self ch rest)
    cases ch with
    | nil => simp at hchlen; omega
    | cons row rrest =>
      exact hrows row (List.mem_cons_self row rrest)

theorem shape1_flatten_of_isTensor3 {α : Type} {c t m : ℕ} {x : Tensor3 α}
    (hx : IsTensor3 c t m x) (hc : 0 < c) (ht : 0 < t) : shape1 x.flatten = m := by
  obtain ⟨hlen, hall⟩ := hx
  cases x with
  | nil => simp at hlen; omega
  | cons ch rest =>
    obtain ⟨hchlen, hrows⟩ := hall ch (List.mem_cons_self ch rest)
    cases ch with
    | nil => simp at hchlen; omega
    | cons row rrest =>
      exact hrows row (List.mem_cons_self row rrest)

theorem entries3At_eq_flatten {α : Type} [Field α] (x : Tensor3 α) (k : ℕ) :
    entries3At x k = entries2At x.flatten k := by
  unfold entries3At entries2At
  rw [List.map_flatten]

/-- Counterexample to C1 as stated: on the 3-D tensor `[[[0]], [[2]]]`
(2 channels, 1 time frame, 1 mel bin) the accumulator returns the single
mean `[1]` merging the two channels, while per-channel means reducing only
over time would be `[[0], [2]]`; the channel axis is not retained. -/
theorem C1_per_channel_counterexample :
    (calculate_scalar_of_tensor3 (fun r => |r|) ([[[0]], [[2]]] : Tensor3 ℝ)).1 = [1]
      ∧ claimedPerChannelMean ([[[0]], [[2]]] : Tensor3 ℝ) = [[0], [2]]
      ∧ (calculate_scalar_of_tensor3 (fun r => |r|)
          ([[[0]], [[2]]] : Tensor3 ℝ)).1.length
        ≠ ([[[0]], [[2]]] : Tensor3 ℝ).length := by
  refine ⟨?_, ?_, ?_⟩ <;>
    simp [calculate_scalar_of_tensor3, np_mean_axis01, entries3At, np_mean, shape2,
      claimedPerChannelMean, np_mean_axis0, entries2At, shape1, List.range_succ] <;>
    norm_num

/-- C1 amended: for 3-D input, `calculate_scalar_of_tensor` reduces over BOTH
the channel and the time axes, returning one (mean, std) per mel bin only:
it equals the 2-D statistics of the channel-flattened tensor and its length
is the mel-bin count, not channels times mel bins. -/
theorem C1_stats_per_bin_only (x : Tensor3 ℝ) (c t m : ℕ) (hx : IsTensor3 c t m x)
    (hc : 0 < c) (ht : 0 < t) :
    calculate_scalar_of_tensor3 (fun r => |r|) x
        = calculate_scalar_of_tensor2 (fun r => |r|) x.flatten
      ∧ (calculate_scalar_of_tensor3 (fun r => |r|) x).1.length = m := by
  have hm2 : shape2 x = m := shape2_of_isTensor3 hx hc ht
  have hm1 : shape1 x.flatten = m := shape1_flatten_of_isTensor3 hx hc ht
  constructor
  · unfold calculate_scalar_of_tensor3 calculate_scalar_of_tensor2 np_mean_axis01
      np_mean_axis0 np_std_axis01 np_std_axis0
    rw [hm2, hm1]
    simp only [entries3At_eq_flatten]
  · unfold calculate_scalar_of_tensor3 np_mean_axis01
    simp [hm2]

/-- Witness for C1 amended at the concrete tensor `[[[0]], [[2]]]`. -/
theorem C1_stats_per_bin_only_witness :
    (calculate_scalar_of_tensor3 (fun r => |r|) ([[[0]], [[2]]] : Tensor3 ℝ)
        = calculate_scalar_of_tensor2 (fun r => |r|)
            ([[[0]], [[2]]] : Tensor3 ℝ).flatten)
      ∧ (calculate_scalar_of_tensor3 (fun r => |r|)
          ([[[0]], [[2]]] : Tensor3 ℝ)).1.length = 1 :=
  C1_stats_per_bin_only [[[0]], [[2]]] 2 1 1
    (by refine ⟨rfl, ?_⟩
        intro ch hch
        rcases List.mem_cons.mp hch with rfl | hch
        · exact ⟨rfl, by intro row hrow; rcases List.mem_cons.mp hrow with rfl | h
                         · rfl
                         · simp at h⟩
        · rcases List.mem_cons.mp hch with rfl | h
          · exact ⟨rfl, by intro row hrow
                           rcases List.mem_cons.mp hrow with rfl | h
                           · rfl
                           · simp at h⟩
          · simp at h)
    (by norm_num) (by norm_num)

theorem mem_zipWith_append {β : Type} {x : List β} :
    ∀ {f g : List (List β)}, x ∈ List.zipWith (fun a b => a ++ b) f g →
      ∃ a ∈ f, ∃ b ∈ g, x = a ++ b := by
  intro f
  induction f with
  | nil => intro g h; simp at h
  | cons a f ih =>
    intro g h
    cases g with
    | nil => simp at h
    | cons b g =>
      rw [List.zipWith_cons_cons] at h
      rcases List.mem_cons.mp h with h | h
      · exact ⟨a, List.mem_cons_self a f, b, List.mem_cons_self b g, h⟩
      · obtain ⟨a2, ha, b2, hb, rfl⟩ := ih h
        exact ⟨a2, List.mem_cons_of_mem _ ha, b2, List.mem_cons_of_mem _ hb, rfl⟩

theorem isTensor3_zipWith_append {α : Type} {c t1 t2 m : ℕ} {f g : Tensor3 α}
    (hf : IsTensor3 c t1 m f) (hg : IsTensor3 c t2 m g) :
    IsTensor3 c (t1 + t2) m (List.zipWith (fun a b => a ++ b) f g) := by
  obtain ⟨hf1, hf2⟩ := hf
  obtain ⟨hg1, hg2⟩ := hg
  constructor
  · rw [List.length_zipWith, hf1, hg1, Nat.min_self]
  · intro ch hch
    obtain ⟨a, ha, b, hb, rfl⟩ := mem_zipWith_append hch
    obtain ⟨ha1, ha2⟩ := hf2 a ha
    obtain ⟨hb1, hb2⟩ := hg2 b hb
    refine ⟨by simp [ha1, hb1], ?_⟩
    intro row hrow
    rcases List.mem_append.mp hrow with h | h
    · exact ha2 row h
    · exact hb2 row h

theorem entries3At_zipWith_perm {α : Type} [Field α] {f g : Tensor3 α}
    (h : f.length = g.length) (k : ℕ) :
    (entries3At (List.zipWith (fun a b => a ++ b) f g) k).Perm
      (entries3At f k ++ entries3At g k) := by
  induction f generalizing g with
  | nil =>
    cases g with
    | nil => simp [entries3At]
    | cons b g => simp at h
  | cons a f ih =>
    cases g with
    | nil => simp at h
    | cons b g =>
      have h2 : f.length = g.length := by simpa using h
      simp only [entries3At, List.zipWith_cons_cons, List.map_cons, List.flatten_cons,
        List.map_append] at *
      refine ((ih h2).append_left (a.map (fun row => row.getD k 0)
        ++ b.map (fun row => row.getD k 0))).trans ?_
      generalize a.map (fun row => row.getD k 0) = A
      generalize b.map (fun row => row.getD k 0) = B
      generalize (f.map (fun ch => ch.map (fun row => row.getD k 0))).flatten = F
      generalize (g.map (fun ch => ch.map (fun row => row.getD k 0))).flatten = G
      have hmid : (B ++ (F ++ G)).Perm (F ++ (B ++ G)) := by
        rw [← List.append_assoc, ← List.append_assoc]
        exact (List.perm_append_comm : (B ++ F).Perm (F ++ B)).append_right G
      rw [List.append_assoc A B (F ++ G), List.append_assoc A F (B ++ G)]
      exact hmid.append_left A

theorem entries3At_length {α : Type} [Field α] {c t m : ℕ} {f : Tensor3 α}
    (hf : IsTensor3 c t m f) (k : ℕ) : (entries3At f k).length = c * t := by
  obtain ⟨h1, h2⟩ := hf
  unfold entries3At
  rw [List.length_flatten, List.map_map]
  have hconst : ∀ ch ∈ f,
      (List.length ∘ fun ch => ch.map (fun row => row.getD k 0)) ch = t := by
    intro ch hch
    simp [(h2 ch hch).1]
  rw [List.map_congr_left hconst]
  simp [List.sum_replicate, List.map_const, h1, Nat.mul_comm]

theorem np_concatenate_spec {α : Type} [Field α] {c m : ℕ} :
    ∀ fs : List (Tensor3 α), fs ≠ [] →
    (∀ f ∈ fs, IsTensor3 c (shape1 f) m f) →
    ∃ A, np_concatenate_axis1 fs = some A
      ∧ IsTensor3 c ((fs.map (fun f => shape1 f)).sum) m A
      ∧ ∀ k, (entries3At A k).Perm
          ((fs.map (fun f => entries3At f k)).flatten) := by
  intro fs
  induction fs with
  | nil => intro h; exact absurd rfl h
  | cons f rest ih =>
    intro _ hall
    cases rest with
    | nil =>
      refine ⟨f, rfl, ?_, ?_⟩
      · simpa using hall f (List.mem_cons_self f [])
      · intro k; simp
    | cons g t =>
      obtain ⟨A, hA, hAT, hAperm⟩ :=
        ih (by simp) (fun x hx => hall x (List.mem_cons_of_mem _ hx))
      refine ⟨List.zipWith (fun a b => a ++ b) f A, ?_, ?_, ?_⟩
      · show (np_concatenate_axis1 (g :: t)).map _ = _
        rw [hA]
        rfl
      · have hf := hall f (List.mem_cons_self f (g :: t))
        simpa using isTensor3_zipWith_append hf hAT
      · intro k
        have hlen : f.length = A.length := by
          rw [(hall f (List.mem_cons_self f (g :: t))).1, hAT.1]
        refine (entries3At_zipWith_perm hlen k).trans ?_
        simp only [List.map_cons, List.flatten_cons]
        exact (hAperm k).append_left (entries3At f k)

theorem sum_sq_dev (μ : ℝ) : ∀ l : List ℝ,
    (l.map (fun v => (v - μ) ^ 2)).sum
      = (l.map (fun v => v ^ 2)).sum - 2 * μ * l.sum + l.length * μ ^ 2 := by
  intro l
  induction l with
  | nil => simp
  | cons a l ih =>
    simp only [List.map_cons, List.sum_cons, ih, List.length_cons]
    push_cast
    ring

theorem np_var_eq (l : List ℝ) (hl : l.length ≠ 0) :
    np_mean (l.map (fun v => |v - np_mean l| ^ 2))
      = (l.map (fun v => v ^ 2)).sum / (l.length : ℝ) - np_mean l ^ 2 := by
  have hn : ((l.length : ℝ)) ≠ 0 := Nat.cast_ne_zero.mpr hl
  simp only [sq_abs]
  unfold np_mean
  rw [List.length_map, sum_sq_dev]
  field_simp
  ring

theorem calc3_eq_streaming {fs : List (Tensor3 ℝ)} {A : Tensor3 ℝ} {m : ℕ}
    (hmA : shape2 A = m) (hmf : shape2 (fs.headD []) = m)
    (hperm : ∀ k, (entries3At A k).Perm
      ((fs.map (fun f => entries3At f k)).flatten))
    (hlen : ∀ k, (entries3At A k).length ≠ 0) :
    calculate_scalar_of_tensor3 (fun r => |r|) A = streamingStats fs := by
  have hsum : ∀ k, (entries3At A k).sum = (fs.map (fun f => fileSumAt f k)).sum := by
    intro k
    rw [(hperm k).sum_eq, List.sum_flatten, List.map_map]
    rfl
  have hsq : ∀ k, ((entries3At A k).map (fun v => v ^ 2)).sum
      = (fs.map (fun f => fileSqSumAt f k)).sum := by
    intro k
    rw [((hperm k).map (fun v => v ^ 2)).sum_eq, List.map_flatten, List.sum_flatten,
      List.map_map, List.map_map]
    rfl
  have hcnt : ∀ k, (entries3At A k).length
      = (fs.map (fun f => fileCountAt f k)).sum := by
    intro k
    rw [(hperm k).length_eq, List.length_flatten, List.map_map]
    rfl
  unfold calculate_scalar_of_tensor3 np_mean_axis01 np_std_axis01 streamingStats
  rw [hmA, hmf]
  refine congrArg₂ Prod.mk ?_ ?_
  · refine List.map_congr_left ?_
    intro k _
    unfold np_mean
    rw [hsum k, hcnt k]
  · refine List.map_congr_left ?_
    intro k _
    unfold np_std_slice
    rw [np_var_eq _ (hlen k)]
    unfold np_mean
    rw [hsum k, hsq k, hcnt k]

/-- C7: the (mean, std) of the time-concatenation of per-file features
equals the streaming merge of per-file sum, sum of squares and count, and
the result is invariant under permuting the file list. -/
theorem C7_stats_concat_streaming_order (fs : List (Tensor3 ℝ)) (c m : ℕ)
    (hne : fs ≠ []) (hc : 0 < c)
    (hfs : ∀ f ∈ fs, IsTensor3 c (shape1 f) m f ∧ 0 < shape1 f) :
    (np_concatenate_axis1 fs).map (calculate_scalar_of_tensor3 (fun r => |r|))
        = some (streamingStats fs)
      ∧ ∀ gs : List (Tensor3 ℝ), gs.Perm fs →
        (np_concatenate_axis1 gs).map (calculate_scalar_of_tensor3 (fun r => |r|))
          = (np_concatenate_axis1 fs).map
              (calculate_scalar_of_tensor3 (fun r => |r|)) := by
  have key : ∀ hs : List (Tensor3 ℝ), hs ≠ [] →
      (∀ f ∈ hs, IsTensor3 c (shape1 f) m f ∧ 0 < shape1 f) →
      (np_concatenate_axis1 hs).map (calculate_scalar_of_tensor3 (fun r => |r|))
        = some (streamingStats hs) := by
    intro hs hne2 hhs
    obtain ⟨A, hA, hAT, hAperm⟩ :=
      np_concatenate_spec hs hne2 (fun f hf => (hhs f hf).1)
    have hhd : hs.headD [] ∈ hs := by
      cases hs with
      | nil => exact absurd rfl hne2
      | cons a l => exact List.mem_cons_self a l
    have hT : 0 < (hs.map (fun f => shape1 f)).sum := by
      have h0 := (hhs _ hhd).2
      have hmem : shape1 (hs.headD []) ∈ hs.map (fun f => shape1 f) :=
        List.mem_map.mpr ⟨_, hhd, rfl⟩
      have := List.single_le_sum (fun x _ => Nat.zero_le x) _ hmem
      omega
    have hmA : shape2 A = m := shape2_of_isTensor3 hAT hc hT
    have hmf : shape2 (hs.headD []) = m :=
      shape2_of_isTensor3 (hhs _ hhd).1 hc (hhs _ hhd).2
    have hlen : ∀ k, (entries3At A k).length ≠ 0 := by
      intro k
      rw [entries3At_length hAT k]
      have := Nat.mul_pos hc hT
      omega
    rw [hA]
    exact congrArg some (calc3_eq_streaming hmA hmf hAperm hlen)
  refine ⟨key fs hne hfs, ?_⟩
  intro gs hp
  have hgne : gs ≠ [] := by
    intro h
    rw [h] at hp
    exact hne hp.symm.eq_nil
  have hgs : ∀ f ∈ gs, IsTensor3 c (shape1 f) m f ∧ 0 < shape1 f :=
    fun f hf => hfs f (hp.subset hf)
  rw [key gs hgne hgs, key fs hne hfs]
  refine congrArg some ?_
  have hhdg : gs.headD [] ∈ gs := by
    cases gs with
    | nil => exact absurd rfl hgne
    | cons a l => exact List.mem_cons_self a l
  have hhdf : fs.headD [] ∈ fs := by
    cases fs with
    | nil => exact absurd rfl hne
    | cons a l => exact List.mem_cons_self a l
  have hmg : shape2 (gs.headD []) = m :=
    shape2_of_isTensor3 (hgs _ hhdg).1 hc (hgs _ hhdg).2
  have hmf2 : shape2 (fs.headD []) = m :=
    shape2_of_isTensor3 (hfs _ hhdf).1 hc (hfs _ hhdf).2
  have h1 : ∀ k, (gs.map (fun f => fileSumAt f k)).sum
      = (fs.map (fun f => fileSumAt f k)).sum :=
    fun k => (hp.map _).sum_eq
  have h2 : ∀ k, (gs.map (fun f => fileSqSumAt f k)).sum
      = (fs.map (fun f => fileSqSumAt f k)).sum :=
    fun k => (hp.map _).sum_eq
  have h3 : ∀ k, (gs.map (fun f => fileCountAt f k)).sum
      = (fs.map (fun f => fileCountAt f k)).sum :=
    fun k => (hp.map _).sum_eq
  unfold streamingStats
  rw [hmg, hmf2]
  refine congrArg₂ Prod.mk ?_ ?_ <;> refine List.map_congr_left ?_ <;> intro k _
  · rw [h1 k, h3 k]
  · rw [h1 k, h2 k, h3 k]

/-- Witness for C7 at two concrete one-channel, one-bin files with 2 and 1
time frames. -/
theorem C7_stats_concat_streaming_order_witness :
    ((np_concatenate_axis1 [([[[0], [2]]] : Tensor3 ℝ), [[[4]]]]).map
        (calculate_scalar_of_tensor3 (fun r => |r|))
      = some (streamingStats [([[[0], [2]]] : Tensor3 ℝ), [[[4]]]]))
      ∧ ∀ gs : List (Tensor3 ℝ), gs.Perm [([[[0], [2]]] : Tensor3 ℝ), [[[4]]]] →
        (np_concatenate_axis1 gs).map (calculate_scalar_of_tensor3 (fun r => |r|))
          = (np_concatenate_axis1 [([[[0], [2]]] : Tensor3 ℝ), [[[4]]]]).map
              (calculate_scalar_of_tensor3 (fun r => |r|)) :=
  C7_stats_concat_streaming_order [[[[0], [2]]], [[[4]]]] 1 1 (by simp) (by norm_num)
    (by
      intro f hf
      rcases List.mem_cons.mp hf with rfl | hf
      · refine ⟨⟨rfl, ?_⟩, by simp [shape1]⟩
        intro ch hch
        rcases List.mem_cons.mp hch with rfl | hch
        · refine ⟨rfl, ?_⟩
          intro row hrow
          rcases List.mem_cons.mp hrow with rfl | hrow
          · rfl
          · rcases List.mem_cons.mp hrow with rfl | hrow
            · rfl
            · simp at hrow
        · simp at hch
      · rcases List.mem_cons.mp hf with rfl | hf
        · refine ⟨⟨rfl, ?_⟩, by simp [shape1]⟩
          intro ch hch
          rcases List.mem_cons.mp hch with rfl | hch
          · refine ⟨rfl, ?_⟩
            intro row hrow
            rcases List.mem_cons.mp hrow with rfl | hrow
            · rfl
            · simp at hrow
          · simp at hch
        · simp at hf)

theorem processFiles_ok (load : String → Except String (List (List ℚ)))
    (extract : List (List ℚ) → Feature) (output_dir mode : String)
    (w : AudioEntry → List (List ℚ)) :
    ∀ files : List AudioEntry,
      (∀ e ∈ files, load e.audio_path = Except.ok (w e)) →
      processFiles load extract output_dir mode files
        = (files.map (fun e => (cachePath output_dir e.audio_name mode,
            ⟨extract (w e), e.start_times, e.end_times⟩)),
           Except.ok (files.map (fun e => extract (w e)))) := by
  intro files
  induction files with
  | nil => intro _; rfl
  | cons e rest ih =>
    intro hall
    have he := hall e (List.mem_cons_self e rest)
    have hrest := ih (fun x hx => hall x (List.mem_cons_of_mem _ hx))
    simp [processFiles, he, hrest, Except.map]

theorem processFiles_error (load : String → Except String (List (List ℚ)))
    (extract : List (List ℚ) → Feature) (output_dir mode : String) :
    ∀ files : List AudioEntry,
      (∃ e ∈ files, ∃ msg, load e.audio_path = Except.error msg) →
      ∃ msg, (processFiles load extract output_dir mode files).2
        = Except.error msg := by
  intro files
  induction files with
  | nil =>
    rintro ⟨e, he, _⟩
    simp at he
  | cons e rest ih =>
    rintro ⟨x, hx, msg, hmsg⟩
    cases hload : load e.audio_path with
    | error m =>
      refine ⟨m, ?_⟩
      simp [processFiles, hload, Except.map]
    | ok wave =>
      rcases List.mem_cons.mp hx with rfl | hx
      · rw [hload] at hmsg
        exact absurd hmsg (by simp)
      · obtain ⟨m2, hm2⟩ := ih ⟨x, hx, msg, hmsg⟩
        refine ⟨m2, ?_⟩
        simp [processFiles, hload, hm2, Except.map]

theorem applyWrites_eq :
    ∀ (ws : List (String × CacheRecord)) (σ : String → Option CacheRecord)
      (q : String),
      applyWrites ws σ q = (lastWrite q ws).orElse (fun _ => σ q) := by
  intro ws
  induction ws with
  | nil => intro σ q; rfl
  | cons kv ws ih =>
    intro σ q
    obtain ⟨k, v⟩ := kv
    show applyWrites ws (fun r => if r = k then some v else σ r) q = _
    rw [ih]
    show _ = ((lastWrite q ws).orElse
      (fun _ => if q = k then some v else none)).orElse (fun _ => σ q)
    cases hlw : lastWrite q ws with
    | some r => rfl
    | none =>
      by_cases hq : q = k <;> simp [hq, Option.orElse]

theorem applyWrites_idem (ws : List (String × CacheRecord))
    (σ : String → Option CacheRecord) :
    applyWrites ws (applyWrites ws σ) = applyWrites ws σ := by
  funext q
  rw [applyWrites_eq, applyWrites_eq]
  cases hlw : lastWrite q ws <;> rfl

/-- C6: with every file readable, `preprocess_data` writes exactly one cache
record per source file, at `<output_dir>/<audio_name>_<mode>_features_and_labels.pkl`,
holding exactly that files computed feature and its raw start/end time
lists; and replaying the same writes overwrites in place, so a re-run is
idempotent per file. -/
theorem C6_cache_record_per_file (reader : String → Except String (RawAudio × ℕ))
    (resample : ℕ → ℕ → List ℚ → List ℚ) (dft : List ℚ → ℕ → ℕ → ℂ)
    (M : List (List ℝ)) (cfg : SpectrogramConfig) (files : List AudioEntry)
    (output_dir msf mode : String) (w : AudioEntry → List (List ℚ))
    (hw : ∀ e ∈ files, loadWave reader resample cfg e.audio_path = Except.ok (w e)) :
    (preprocess_data reader resample dft M cfg files output_dir msf mode).cacheWrites
        = files.map (fun e => (cachePath output_dir e.audio_name mode,
            ⟨computeFeature dft M cfg mode (w e), e.start_times, e.end_times⟩))
      ∧ ∀ σ : String → Option CacheRecord,
          applyWrites
            (preprocess_data reader resample dft M cfg files output_dir
              msf mode).cacheWrites
            (applyWrites
              (preprocess_data reader resample dft M cfg files output_dir
                msf mode).cacheWrites σ)
          = applyWrites
              (preprocess_data reader resample dft M cfg files output_dir
                msf mode).cacheWrites σ := by
  have hpf := processFiles_ok (loadWave reader resample cfg)
    (computeFeature dft M cfg mode) output_dir mode w files hw
  refine ⟨?_, fun σ => applyWrites_idem _ σ⟩
  unfold preprocess_data
  rw [hpf]
  cases hst : statsOfFeatures (files.map (fun e => computeFeature dft M cfg mode (w e)))
    with
  | none => simp [hst]
  | some s => simp [hst]

/-- C9: if reading any single file fails, `preprocess_data` persists no
statistics record at all — the failed file contributes no partial or garbage
data to any persisted (mean, std) — and the run reports the failure. -/
theorem C9_failed_file_excluded_from_stats
    (reader : String → Except String (RawAudio × ℕ))
    (resample : ℕ → ℕ → List ℚ → List ℚ) (dft : List ℚ → ℕ → ℕ → ℂ)
    (M : List (List ℝ)) (cfg : SpectrogramConfig) (files : List AudioEntry)
    (output_dir msf mode : String)
    (hfail : ∃ e ∈ files, ∃ msg,
        loadWave reader resample cfg e.audio_path = Except.error msg) :
    (preprocess_data reader resample dft M cfg files output_dir msf mode).statsWrite
        = none
      ∧ (preprocess_data reader resample dft M cfg files output_dir
          msf mode).failed.isSome = true := by
  obtain ⟨msg, hmsg⟩ := processFiles_error (loadWave reader resample cfg)
    (computeFeature dft M cfg mode) output_dir mode files hfail
  simp only [preprocess_data, hmsg]
  simp

/-- Witness for C6 on a one-file batch whose audio reads successfully. -/
theorem C6_cache_record_per_file_witness :
    (preprocess_data (fun _ => Except.ok (RawAudio.mono [1, 2], 5)) (fun _ _ l => l)
        (fun _ _ _ => 0) [[1]] ⟨5, 1, 8, 4, 2, 64⟩ [⟨"p", [0], [1], "n"⟩]
        "out" "stats" "logMel").cacheWrites
      = ([⟨"p", [0], [1], "n"⟩] : List AudioEntry).map (fun e =>
          (cachePath "out" e.audio_name "logMel",
            ⟨computeFeature (fun _ _ _ => 0) [[1]] ⟨5, 1, 8, 4, 2, 64⟩ "logMel"
                ((fun _ => [[1], [2]]) e),
             e.start_times, e.end_times⟩))
      ∧ ∀ σ : String → Option CacheRecord,
          applyWrites
            (preprocess_data (fun _ => Except.ok (RawAudio.mono [1, 2], 5))
              (fun _ _ l => l) (fun _ _ _ => 0) [[1]] ⟨5, 1, 8, 4, 2, 64⟩
              [⟨"p", [0], [1], "n"⟩] "out" "stats" "logMel").cacheWrites
            (applyWrites
              (preprocess_data (fun _ => Except.ok (RawAudio.mono [1, 2], 5))
                (fun _ _ l => l) (fun _ _ _ => 0) [[1]] ⟨5, 1, 8, 4, 2, 64⟩
                [⟨"p", [0], [1], "n"⟩] "out" "stats" "logMel").cacheWrites σ)
          = applyWrites
              (preprocess_data (fun _ => Except.ok (RawAudio.mono [1, 2], 5))
                (fun _ _ l => l) (fun _ _ _ => 0) [[1]] ⟨5, 1, 8, 4, 2, 64⟩
                [⟨"p", [0], [1], "n"⟩] "out" "stats" "logMel").cacheWrites σ :=
  C6_cache_record_per_file (fun _ => Except.ok (RawAudio.mono [1, 2], 5))
    (fun _ _ l => l) (fun _ _ _ => 0) [[1]] ⟨5, 1, 8, 4, 2, 64⟩
    [⟨"p", [0], [1], "n"⟩] "out" "stats" "logMel" (fun _ => [[1], [2]])
    (by
      intro e he
      rcases List.mem_cons.mp he with rfl | he
      · norm_num [loadWave, read_multichannel_audio, normalizeChannels, shape1,
          RawAudio.as2D, rowMean, np_mean, Except.map]
      · simp at he)

/-- Witness for C9 on a one-file batch whose audio read fails. -/
theorem C9_failed_file_excluded_from_stats_witness :
    (preprocess_data (fun _ => Except.error "unreadable") (fun _ _ l => l)
        (fun _ _ _ => 0) [[1]] ⟨5, 1, 8, 4, 2, 64⟩ [⟨"p", [], [], "n"⟩]
        "out" "stats" "logMel").statsWrite = none
      ∧ (preprocess_data (fun _ => Except.error "unreadable") (fun _ _ l => l)
          (fun _ _ _ => 0) [[1]] ⟨5, 1, 8, 4, 2, 64⟩ [⟨"p", [], [], "n"⟩]
          "out" "stats" "logMel").failed.isSome = true :=
  C9_failed_file_excluded_from_stats (fun _ => Except.error "unreadable")
    (fun _ _ l => l) (fun _ _ _ => 0) [[1]] ⟨5, 1, 8, 4, 2, 64⟩
    [⟨"p", [], [], "n"⟩] "out" "stats" "logMel"
    ⟨⟨"p", [], [], "n"⟩, List.mem_cons_self _ _, "unreadable", rfl⟩

end SoundEventDetection
